import Mathlib

/-!
Verification of the Bulls-and-Cows console game (`pokus_3.1.py`).

The embedding below translates the pure logic of the source file:
`generate_number` (the deterministic repair step applied to the random
sample), `is_valid_input`, `pluralize`, `evaluate_guess`, and the
state-updating core of `play_game`.  Digits are modelled as `Nat`,
raw input strings as `List Char`, Python's `str.isdigit` as
"non-empty and every character an ASCII decimal digit".
-/

namespace Hrapokus

/-- The global constant `DIGIT_COUNT = 4` from the source. -/
def DIGIT_COUNT : Nat := 4

/-! ### evaluate_guess

The position pass of `evaluate_guess` walks `zip(secret, guess)`;
matching pairs increment `bulls`, non-matching pairs are appended to
the `unmatched_secret` / `unmatched_guess` working lists in order. -/

/-- Number of bulls: positions where secret and guess digits agree
(the `bulls += 1` branch of the first loop of `evaluate_guess`). -/
def bulls_count (secret guess : List Nat) : Nat :=
  ((secret.zip guess).filter (fun p => p.1 == p.2)).length

/-- The `unmatched_secret` working list built by the first loop of
`evaluate_guess`: secret digits at non-matching positions, in order. -/
def unmatched_secret (secret guess : List Nat) : List Nat :=
  ((secret.zip guess).filter (fun p => !(p.1 == p.2))).map Prod.fst

/-- The `unmatched_guess` working list built by the first loop of
`evaluate_guess`: guess digits at non-matching positions, in order. -/
def unmatched_guess (secret guess : List Nat) : List Nat :=
  ((secret.zip guess).filter (fun p => !(p.1 == p.2))).map Prod.snd

/-- The second loop of `evaluate_guess`: for each digit of the
unmatched-guess list, in order, if it occurs in the (remaining)
unmatched-secret list, count a cow and remove one occurrence
(`unmatched_secret.remove(digit)` removes the first occurrence,
as does `List.erase`). -/
def cow_count : List Nat → List Nat → Nat
  | [], _ => 0
  | d :: rest, sec =>
      if d ∈ sec then cow_count rest (sec.erase d) + 1
      else cow_count rest sec

/-- `evaluate_guess(secret, guess)` from the source: returns the pair
`(bulls, cows)`.  `zip` silently truncates to the shorter list, exactly
as Python's `zip` does. -/
def evaluate_guess (secret guess : List Nat) : Nat × Nat :=
  (bulls_count secret guess,
   cow_count (unmatched_guess secret guess) (unmatched_secret secret guess))

/-! ### is_valid_input -/

/-- Message appended when the digits-only check fails. -/
def digits_message : String := "Input must contain only digits."

/-- Message appended when the length check fails. -/
def length_message : String :=
  "Input must be " ++ toString DIGIT_COUNT ++ " digits long."

/-- Message appended when the leading-zero check fails. -/
def zero_message : String := "Number cannot start with zero."

/-- Message appended when the distinct-digits check fails. -/
def unique_message : String := "Digits must be unique."

/-- Python's `str.isdigit()`: true iff the string is non-empty and every
character is a decimal digit (`"".isdigit()` is `False`).  The game only
ever deals in ASCII characters, so `Char.isDigit` is the right test. -/
def isdigit (s : List Char) : Bool := !s.isEmpty && s.all Char.isDigit

/-- The guard `user_input and user_input[0] == "0"` from the source:
true iff the string is non-empty and starts with the character '0'. -/
def starts_with_zero (s : List Char) : Bool :=
  match s with
  | c :: _ => c == '0'
  | [] => false

/-- `is_valid_input(user_input)` from the source: builds the error list
by four independent (non-short-circuited) checks, in order, and returns
`(len(errors) == 0, errors)`.  Python's `len(set(s))` is the number of
distinct characters, i.e. `s.dedup.length`. -/
def is_valid_input (user_input : List Char) : Bool × List String :=
  let errors : List String :=
    (if isdigit user_input then [] else [digits_message]) ++
    (if user_input.length == DIGIT_COUNT then [] else [length_message]) ++
    (if starts_with_zero user_input then [zero_message] else []) ++
    (if user_input.dedup.length == user_input.length then [] else [unique_message])
  (errors.length == 0, errors)

/-! ### pluralize -/

/-- `pluralize(count, singular, suffix="s", show_count=True)` from the
source (defaults passed explicitly here): the word is `singular` exactly
when `count == 1`, otherwise `singular + suffix`; the result is
`f"{count} {word}"` when `show_count` else just `word`. -/
def pluralize (count : Nat) (singular : String) (sfx : String)
    (show_count : Bool) : String :=
  let word := if count == 1 then singular else singular ++ sfx
  if show_count then toString count ++ " " ++ word else word

/-! ### generate_number

`random.sample(range(0, 10), DIGIT_COUNT)` produces a list of
`DIGIT_COUNT` distinct digits from 0..9; the draw is modelled as an
arbitrary argument `sample` satisfying those properties (they appear as
hypotheses of the theorem).  The deterministic repair step that follows
the draw is translated exactly. -/

/-- The repair step of `generate_number`: if the first digit is 0, scan
positions 1..N-1 in order for the first nonzero digit and swap it with
position 0 (the `for i in range(1, DIGIT_COUNT)` loop with `break`).
Scanning the tail for the first index whose digit is nonzero is
`findIdx?`; the swap writes that digit at position 0 and writes the old
head at the found position. -/
def fix_leading_zero (digits : List Nat) : List Nat :=
  match digits with
  | [] => []
  | d0 :: rest =>
      if d0 = 0 then
        match rest.findIdx? (fun d => d != 0) with
        | some i => rest.getD i 0 :: rest.set i d0
        | none => d0 :: rest
      else d0 :: rest

/-- `generate_number()` as a function of the random draw `sample`. -/
def generate_number (sample : List Nat) : List Nat :=
  fix_leading_zero sample

/-! ### play_game session state -/

/-- The mutable local state of `play_game`: the secret, the attempt
counter, and the start timestamp (an opaque value, only ever copied). -/
structure SessionState where
  secret : List Nat
  attempts : Nat
  start_time : Nat
deriving Repr, DecidableEq

/-- The state set up at the top of `play_game`: `attempts = 0`, the
generated secret, and the captured start time. -/
def init_state (secret : List Nat) (start_time : Nat) : SessionState :=
  { secret := secret, attempts := 0, start_time := start_time }

/-- `[int(d) for d in user_input]` on a validated input string. -/
def parse_guess (user_input : List Char) : List Nat :=
  user_input.map (fun c => c.toNat - '0'.toNat)

/-- One iteration of the `while True` loop of `play_game`, as a function
of the current state and the raw submission: an invalid submission only
prints messages and `continue`s (state unchanged, not won); a valid one
parses the guess, increments `attempts`, evaluates, and wins exactly
when `bulls == DIGIT_COUNT`.  Returns the new state and the win flag. -/
def play_step (st : SessionState) (user_input : List Char) :
    SessionState × Bool :=
  if (is_valid_input user_input).1 then
    let guess := parse_guess user_input
    let st1 := { st with attempts := st.attempts + 1 }
    let r := evaluate_guess st1.secret guess
    (st1, r.1 == DIGIT_COUNT)
  else (st, false)

/-! ### Mutation-aware embedding of evaluate_guess (for the frame claim)

Python lists are mutable; to state that `evaluate_guess` does not mutate
its arguments, the function body is re-traced as explicit state passing
over all the list variables in its scope.  Every list operation the body
performs is a field update on this state; the claim is that the `secret`
and `guess` fields of the final state equal the initial ones. -/

/-- All local variables of `evaluate_guess`, plus its two arguments. -/
structure EvalState where
  secret : List Nat
  guess : List Nat
  bulls : Nat
  cows : Nat
  unmatched_secret : List Nat
  unmatched_guess : List Nat
deriving Repr, DecidableEq

/-- The first loop of `evaluate_guess` as a state transformer over the
pairs of `zip(secret, guess)`. -/
def position_pass : List (Nat × Nat) → EvalState → EvalState
  | [], st => st
  | (sd, gd) :: rest, st =>
      if sd = gd then
        position_pass rest { st with bulls := st.bulls + 1 }
      else
        position_pass rest
          { st with unmatched_secret := st.unmatched_secret ++ [sd],
                    unmatched_guess := st.unmatched_guess ++ [gd] }

/-- The second loop of `evaluate_guess` as a state transformer; the
iteration list is the value of `unmatched_guess` when the loop starts
(Python iterates over that list object, which this loop never mutates). -/
def cow_pass : List Nat → EvalState → EvalState
  | [], st => st
  | d :: rest, st =>
      if d ∈ st.unmatched_secret then
        cow_pass rest
          { st with cows := st.cows + 1,
                    unmatched_secret := st.unmatched_secret.erase d }
      else cow_pass rest st

/-- The whole body of `evaluate_guess` run on the variable state. -/
def evaluate_guess_run (secret guess : List Nat) : EvalState :=
  let st0 : EvalState :=
    { secret := secret, guess := guess, bulls := 0, cows := 0,
      unmatched_secret := [], unmatched_guess := [] }
  let st1 := position_pass (secret.zip guess) st0
  cow_pass st1.unmatched_guess st1

/-! ### Spec-side evaluator (for the length-mismatch refinement claim) -/

/-- The spec's `LengthMismatchError`. -/
inductive LengthMismatchError where
  | mk
deriving Repr, DecidableEq

/-- Modelled from the spec (§4.3 contract): an evaluator that fails with
`LengthMismatchError` when the two sequences have different lengths,
"rather than silently truncate"; on equal lengths it agrees with the
two-pass algorithm.  This definition follows the spec's words and exists
only to be compared with `evaluate_guess`, the code's behaviour. -/
def evaluate_spec (secret guess : List Nat) :
    Except LengthMismatchError (Nat × Nat) :=
  if secret.length = guess.length then Except.ok (evaluate_guess secret guess)
  else Except.error LengthMismatchError.mk

/-! ## Helper lemmas -/

theorem cow_count_le (g : List Nat) : ∀ s : List Nat, cow_count g s ≤ g.length := by
  induction g with
  | nil => intro s; simp [cow_count]
  | cons d rest ih =>
      intro s
      simp only [cow_count, List.length_cons]
      split
      · exact Nat.succ_le_succ (ih _)
      · exact Nat.le_succ_of_le (ih s)

theorem filter_length_split (l : List (Nat × Nat)) :
    (l.filter (fun p => p.1 == p.2)).length +
      (l.filter (fun p => !(p.1 == p.2))).length = l.length := by
  induction l with
  | nil => simp
  | cons a l ih =>
      cases h : (a.1 == a.2) <;> simp [List.filter_cons, h] <;> omega

theorem forall_zip_eq_iff (s : List Nat) : ∀ g : List Nat, s.length = g.length →
    ((∀ pr ∈ s.zip g, pr.1 = pr.2) ↔ s = g) := by
  induction s with
  | nil =>
      intro g h
      cases g with
      | nil => simp
      | cons b g => simp at h
  | cons a s ih =>
      intro g h
      cases g with
      | nil => simp at h
      | cons b g =>
          have h' : s.length = g.length := by simpa using h
          simp only [List.zip_cons_cons, List.forall_mem_cons, List.cons.injEq]
          rw [ih g h']

theorem mem_zip_self_eq (s : List Nat) : ∀ pr ∈ s.zip s, pr.1 = pr.2 :=
  (forall_zip_eq_iff s s rfl).mpr rfl

theorem zip_length_of_eq (s g : List Nat) (h : s.length = g.length) :
    (s.zip g).length = s.length := by
  rw [List.length_zip, h, Nat.min_self]

theorem bulls_count_eq_length_iff (s g : List Nat) (h : s.length = g.length) :
    bulls_count s g = s.length ↔ s = g := by
  unfold bulls_count
  have hz : (s.zip g).length = s.length := zip_length_of_eq s g h
  constructor
  · intro hlen
    have hsub : List.Sublist ((s.zip g).filter (fun p => p.1 == p.2)) (s.zip g) :=
      List.filter_sublist _
    have heq := hsub.eq_of_length (by rw [hlen, hz])
    have hall := List.filter_eq_self.mp heq
    rw [← forall_zip_eq_iff s g h]
    intro pr hpr
    exact beq_iff_eq.mp (hall pr hpr)
  · intro hsg
    have hall : ∀ pr ∈ s.zip g, (fun p : Nat × Nat => p.1 == p.2) pr = true := by
      intro pr hpr
      exact beq_iff_eq.mpr ((forall_zip_eq_iff s g h).mpr hsg pr hpr)
    rw [List.filter_eq_self.mpr hall, hz]

theorem unmatched_nil_of_self (s : List Nat) :
    unmatched_secret s s = [] ∧ unmatched_guess s s = [] := by
  have hnil : (s.zip s).filter (fun p => !(p.1 == p.2)) = [] := by
    rw [List.filter_eq_nil_iff]
    intro pr hpr
    simp [beq_iff_eq.mpr (mem_zip_self_eq s pr hpr)]
  constructor <;> simp [unmatched_secret, unmatched_guess, hnil]

/-! ## Claims about evaluate_guess: score invariants and scenarios -/

/-- C1: for every secret and guess of equal length N, `evaluate_guess`
returns `(bulls, cows)` with `bulls ≥ 0`, `cows ≥ 0` and
`bulls + cows ≤ N`; `bulls = N` holds iff the guess equals the secret
element-wise, and on `guess = secret` the result is `(N, 0)`. -/
theorem evaluate_guess_score_invariants (secret guess : List Nat)
    (h : secret.length = guess.length) :
    0 ≤ (evaluate_guess secret guess).1 ∧
    0 ≤ (evaluate_guess secret guess).2 ∧
    (evaluate_guess secret guess).1 + (evaluate_guess secret guess).2 ≤
      secret.length ∧
    ((evaluate_guess secret guess).1 = secret.length ↔ guess = secret) ∧
    (guess = secret → evaluate_guess secret guess = (secret.length, 0)) := by
  refine ⟨Nat.zero_le _, Nat.zero_le _, ?_, ?_, ?_⟩
  · show bulls_count secret guess +
      cow_count (unmatched_guess secret guess) (unmatched_secret secret guess) ≤
        secret.length
    have hcow := cow_count_le (unmatched_guess secret guess)
      (unmatched_secret secret guess)
    have hug : (unmatched_guess secret guess).length =
        ((secret.zip guess).filter (fun p => !(p.1 == p.2))).length := by
      simp [unmatched_guess]
    have hsplit := filter_length_split (secret.zip guess)
    have hz := zip_length_of_eq secret guess h
    unfold bulls_count
    omega
  · show bulls_count secret guess = secret.length ↔ guess = secret
    rw [bulls_count_eq_length_iff secret guess h]
    exact eq_comm
  · intro hgs
    have hs : secret = guess := hgs.symm
    have hb : bulls_count secret guess = secret.length :=
      (bulls_count_eq_length_iff secret guess h).mpr hs
    have hu := unmatched_nil_of_self secret
    show (bulls_count secret guess,
      cow_count (unmatched_guess secret guess) (unmatched_secret secret guess)) =
        (secret.length, 0)
    rw [hb, ← hs, hu.1, hu.2]
    rfl

/-- Witness for C1 at `secret = [1,2,3,4]`, `guess = [1,2,4,3]`. -/
theorem evaluate_guess_score_invariants_witness :
    ([1, 2, 3, 4] : List Nat).length = ([1, 2, 4, 3] : List Nat).length ∧
    ((evaluate_guess [1, 2, 3, 4] [1, 2, 4, 3]).1 +
       (evaluate_guess [1, 2, 3, 4] [1, 2, 4, 3]).2 ≤
        ([1, 2, 3, 4] : List Nat).length) :=
  ⟨rfl, (evaluate_guess_score_invariants [1, 2, 3, 4] [1, 2, 4, 3] rfl).2.2.1⟩

/-- C2: the spec's three concrete scoring scenarios. -/
theorem evaluate_guess_scenarios :
    evaluate_guess [1, 2, 3, 4] [1, 2, 4, 3] = (2, 2) ∧
    evaluate_guess [1, 2, 3, 4] [4, 3, 2, 1] = (0, 4) ∧
    evaluate_guess [5, 6, 7, 8] [5, 6, 7, 8] = (4, 0) := by
  refine ⟨?_, ?_, ?_⟩ <;> decide

/-! ## Cow crediting: each remaining secret occurrence used at most once -/

theorem cow_count_eq_filter (g : List Nat) :
    ∀ s : List Nat, s.Nodup →
      cow_count g s = (s.filter (fun d => d ∈ g)).length := by
  induction g with
  | nil => intro s _; simp [cow_count]
  | cons d rest ih =>
      intro s hnd
      simp only [cow_count]
      by_cases hd : d ∈ s
      · rw [if_pos hd, ih (s.erase d) (List.Nodup.erase d hnd)]
        have hperm : s.Perm (d :: s.erase d) := List.perm_cons_erase hd
        have hl : (s.filter (fun x => x ∈ d :: rest)).length =
            ((d :: s.erase d).filter (fun x => x ∈ d :: rest)).length :=
          (hperm.filter _).length_eq
        rw [hl, List.filter_cons]
        have hdm : (decide (d ∈ d :: rest)) = true := by simp
        rw [if_pos hdm, List.length_cons]
        have hcong : (s.erase d).filter (fun x => decide (x ∈ d :: rest)) =
            (s.erase d).filter (fun x => decide (x ∈ rest)) := by
          apply List.filter_congr
          intro x hx
          have hxd : x ≠ d := ((List.Nodup.mem_erase_iff hnd).mp hx).1
          simp [List.mem_cons, hxd]
        rw [hcong]
      · rw [if_neg hd, ih s hnd]
        congr 1
        apply List.filter_congr
        intro x hx
        have hxd : x ≠ d := fun he => hd (he ▸ hx)
        simp [List.mem_cons, hxd]

theorem unmatched_secret_nodup (secret guess : List Nat)
    (hnd : secret.Nodup) (h : secret.length = guess.length) :
    (unmatched_secret secret guess).Nodup := by
  have h1 : List.Sublist
      (((secret.zip guess).filter (fun p => !(p.1 == p.2))).map Prod.fst)
      ((secret.zip guess).map Prod.fst) :=
    List.Sublist.map Prod.fst (List.filter_sublist _)
  have h2 : (secret.zip guess).map Prod.fst = secret :=
    List.map_fst_zip secret guess (le_of_eq h)
  rw [h2] at h1
  exact List.Nodup.sublist h1 hnd

/-- C3: with a duplicate-free secret, each digit value still available in
the unmatched-secret list is credited as a cow at most once, however many
times it occurs in the guess: the cow count equals the number of
unmatched secret digits whose value occurs in the unmatched-guess list,
so a digit appearing twice in the guess but once in the secret (and not
at a matching position) contributes exactly one cow. -/
theorem evaluate_guess_cows_credited_once (secret guess : List Nat)
    (hnd : secret.Nodup) (h : secret.length = guess.length) :
    (evaluate_guess secret guess).2 =
      ((unmatched_secret secret guess).filter
        (fun d => d ∈ unmatched_guess secret guess)).length := by
  show cow_count (unmatched_guess secret guess) (unmatched_secret secret guess) =
    ((unmatched_secret secret guess).filter
      (fun d => d ∈ unmatched_guess secret guess)).length
  exact cow_count_eq_filter (unmatched_guess secret guess)
    (unmatched_secret secret guess) (unmatched_secret_nodup secret guess hnd h)

/-- Witness for C3 at `secret = [1,2,3,4]`, `guess = [5,1,1,6]` (the
digit 1 occurs twice in the guess, once in the secret, at no matching
position: it is credited exactly one cow). -/
theorem evaluate_guess_cows_credited_once_witness :
    ([1, 2, 3, 4] : List Nat).Nodup ∧
    ([1, 2, 3, 4] : List Nat).length = ([5, 1, 1, 6] : List Nat).length ∧
    (evaluate_guess [1, 2, 3, 4] [5, 1, 1, 6]).2 =
      ((unmatched_secret [1, 2, 3, 4] [5, 1, 1, 6]).filter
        (fun d => d ∈ unmatched_guess [1, 2, 3, 4] [5, 1, 1, 6])).length ∧
    (evaluate_guess [1, 2, 3, 4] [5, 1, 1, 6]).2 = 1 :=
  ⟨by decide, rfl,
   evaluate_guess_cows_credited_once [1, 2, 3, 4] [5, 1, 1, 6] (by decide) rfl,
   by decide⟩

/-! ## Validator lemmas -/

theorem isdigit_eq_true_iff (s : List Char) :
    isdigit s = true ↔ s ≠ [] ∧ ∀ c ∈ s, c.isDigit := by
  cases s with
  | nil => simp [isdigit]
  | cons c cs => simp [isdigit, List.all_eq_true]

theorem starts_with_zero_eq_true_iff (s : List Char) :
    starts_with_zero s = true ↔ s.head? = some '0' := by
  cases s with
  | nil => simp [starts_with_zero]
  | cons c cs => simp [starts_with_zero]

theorem dedup_length_eq_iff (s : List Char) :
    s.dedup.length = s.length ↔ s.Nodup := by
  constructor
  · intro h
    have he := (List.dedup_sublist s).eq_of_length h
    rw [← he]
    exact s.nodup_dedup
  · intro h
    rw [List.dedup_eq_self.mpr h]

theorem is_valid_messages_eq (s : List Char) :
    (is_valid_input s).2 =
      (if s ≠ [] ∧ ∀ c ∈ s, c.isDigit then [] else [digits_message]) ++
      (if s.length = DIGIT_COUNT then [] else [length_message]) ++
      (if s.head? ≠ some '0' then [] else [zero_message]) ++
      (if s.Nodup then [] else [unique_message]) := by
  show ((if isdigit s then [] else [digits_message]) ++
      (if s.length == DIGIT_COUNT then [] else [length_message]) ++
      (if starts_with_zero s then [zero_message] else []) ++
      (if s.dedup.length == s.length then [] else [unique_message])) = _
  rw [if_congr (isdigit_eq_true_iff s) rfl rfl,
    if_congr (beq_iff_eq (a := s.length) (b := DIGIT_COUNT)) rfl rfl,
    if_congr (starts_with_zero_eq_true_iff s) rfl rfl,
    if_congr ((beq_iff_eq (a := s.dedup.length) (b := s.length)).trans
      (dedup_length_eq_iff s)) rfl rfl,
    ite_not]

/-- C4: `is_valid_input` accepts exactly the strings passing all four
checks (all characters decimal digits, length `DIGIT_COUNT`, no leading
'0', pairwise-distinct characters); when it rejects, the message list
holds exactly one message per failed check, in the fixed order
digit-check, length-check, leading-zero-check, distinctness-check; and
the four spec examples are each rejected with exactly the corresponding
single message. -/
theorem is_valid_input_correct :
    (∀ s : List Char,
      ((is_valid_input s).1 = true ↔
        (∀ c ∈ s, c.isDigit) ∧ s.length = DIGIT_COUNT ∧
          s.head? ≠ some '0' ∧ s.Nodup)) ∧
    (∀ s : List Char,
      (is_valid_input s).2 =
        (if s ≠ [] ∧ ∀ c ∈ s, c.isDigit then [] else [digits_message]) ++
        (if s.length = DIGIT_COUNT then [] else [length_message]) ++
        (if s.head? ≠ some '0' then [] else [zero_message]) ++
        (if s.Nodup then [] else [unique_message])) ∧
    is_valid_input "12a3".toList = (false, [digits_message]) ∧
    is_valid_input "123".toList = (false, [length_message]) ∧
    is_valid_input "0123".toList = (false, [zero_message]) ∧
    is_valid_input "1123".toList = (false, [unique_message]) := by
  refine ⟨?_, fun s => is_valid_messages_eq s, by decide, by decide, by decide,
    by decide⟩
  intro s
  have hv : (is_valid_input s).1 = ((is_valid_input s).2.length == 0) := rfl
  rw [hv, is_valid_messages_eq s]
  simp only [beq_iff_eq, List.length_eq_zero, List.append_eq_nil]
  constructor
  · intro hmem
    split_ifs at hmem with h1 h2 h3 h4 <;> simp_all
  · intro hche
    have hne : s ≠ [] := by
      intro he
      rw [he] at hche
      simp [DIGIT_COUNT] at hche
    split_ifs <;> simp_all

/-- C10: on the empty input string the validator reports exactly two
violations, the digits-only message (Python's `"".isdigit()` is false)
and the wrong-length message; the leading-zero check is guarded by the
emptiness test and reports nothing, and the distinctness check passes
vacuously. -/
theorem is_valid_input_empty :
    is_valid_input [] = (false, [digits_message, length_message]) ∧
    (is_valid_input ([] : List Char)).2.length = 2 := by
  refine ⟨?_, ?_⟩ <;> decide

/-! ## generate_number -/

theorem fix_leading_zero_head_zero (r0 : Nat) (rtail : List Nat) (h0 : r0 ≠ 0) :
    fix_leading_zero (0 :: r0 :: rtail) = r0 :: 0 :: rtail := by
  have hp : (r0 != 0) = true := by simpa using h0
  simp [fix_leading_zero, List.findIdx?_cons, hp]

/-- C5: on every draw of `DIGIT_COUNT` distinct digits below 10, the
secret produced by `generate_number` has length `DIGIT_COUNT`, pairwise
distinct digits below 10, a nonzero first digit, and is a permutation of
the draw (the repair step only swaps digits); when the first drawn digit
is 0 it is swapped with the first nonzero digit of the tail, which by
distinctness is the digit right after it. -/
theorem generate_number_correct (sample : List Nat)
    (hlen : sample.length = DIGIT_COUNT) (hnd : sample.Nodup)
    (hdig : ∀ d ∈ sample, d < 10) :
    (generate_number sample).length = DIGIT_COUNT ∧
    (generate_number sample).Nodup ∧
    (∀ d ∈ generate_number sample, d < 10) ∧
    (∀ d, (generate_number sample).head? = some d → d ≠ 0) ∧
    (generate_number sample).Perm sample ∧
    (∀ r0 rtail, sample = 0 :: r0 :: rtail →
      generate_number sample = r0 :: 0 :: rtail) := by
  have hmain : (generate_number sample).Perm sample ∧
      (∀ d, (generate_number sample).head? = some d → d ≠ 0) ∧
      (∀ r0 rtail, sample = 0 :: r0 :: rtail →
        generate_number sample = r0 :: 0 :: rtail) := by
    cases sample with
    | nil => simp [DIGIT_COUNT] at hlen
    | cons d0 rest =>
        cases rest with
        | nil => simp [DIGIT_COUNT] at hlen
        | cons r0 rtail =>
            by_cases hd0 : d0 = 0
            · subst hd0
              have hr0 : r0 ≠ 0 := by
                intro he
                subst he
                exact (List.nodup_cons.mp hnd).1 (List.mem_cons_self 0 rtail)
              have hfix : generate_number (0 :: r0 :: rtail) = r0 :: 0 :: rtail :=
                fix_leading_zero_head_zero r0 rtail hr0
              refine ⟨?_, ?_, ?_⟩
              · rw [hfix]
                exact List.Perm.swap 0 r0 rtail
              · intro d hd
                rw [hfix] at hd
                simp at hd
                subst hd
                exact hr0
              · intro r0' rtail' he
                injection he with h1 h2
                injection h2 with h3 h4
                subst h3; subst h4
                exact hfix
            · have hfix : generate_number (d0 :: r0 :: rtail) = d0 :: r0 :: rtail := by
                simp [generate_number, fix_leading_zero, hd0]
              refine ⟨?_, ?_, ?_⟩
              · rw [hfix]
              · intro d hd
                rw [hfix] at hd
                simp at hd
                subst hd
                exact hd0
              · intro r0' rtail' he
                injection he with h1 h2
                exact absurd h1 hd0
  refine ⟨?_, ?_, ?_, hmain.2.1, hmain.1, hmain.2.2⟩
  · rw [hmain.1.length_eq, hlen]
  · exact hmain.1.nodup_iff.mpr hnd
  · intro d hd
    exact hdig d (hmain.1.mem_iff.mp hd)

/-- Witness for C5 at the draw `[0, 1, 2, 3]` (leading zero repaired by
swapping with the digit 1 found at position 1). -/
theorem generate_number_correct_witness :
    ([0, 1, 2, 3] : List Nat).length = DIGIT_COUNT ∧
    ([0, 1, 2, 3] : List Nat).Nodup ∧
    (generate_number [0, 1, 2, 3]).length = DIGIT_COUNT ∧
    (generate_number [0, 1, 2, 3]).Nodup ∧
    (generate_number [0, 1, 2, 3]).Perm [0, 1, 2, 3] ∧
    generate_number [0, 1, 2, 3] = [1, 0, 2, 3] :=
  ⟨rfl, by decide,
   (generate_number_correct [0, 1, 2, 3] rfl (by decide) (by decide)).1,
   (generate_number_correct [0, 1, 2, 3] rfl (by decide) (by decide)).2.1,
   (generate_number_correct [0, 1, 2, 3] rfl (by decide) (by decide)).2.2.2.2.1,
   by decide⟩

/-! ## Length mismatch behaviour of evaluate_guess -/

theorem zip_take_take (s : List Nat) : ∀ g : List Nat,
    (s.take g.length).zip (g.take s.length) = s.zip g := by
  induction s with
  | nil => intro g; simp
  | cons a s ih =>
      intro g
      cases g with
      | nil => simp
      | cons b g => simp [ih g]

/-- C6 counterexample: on the length-mismatched call
`evaluate_guess [1,2,3] [1,2]` the code does not fail at all: it returns
the ordinary score `(2, 0)` computed on the truncated common prefix,
whereas the spec-mandated evaluator (`evaluate_spec`, modelled from the
spec's words) fails with `LengthMismatchError` there. -/
theorem evaluate_guess_no_length_error :
    evaluate_guess [1, 2, 3] [1, 2] = (2, 0) ∧
    evaluate_spec [1, 2, 3] [1, 2] =
      Except.error LengthMismatchError.mk := by
  refine ⟨by decide, rfl⟩

/-- C6 amended: when the secret and the guess have different lengths,
`evaluate_guess` raises no error and silently truncates the longer
sequence: its result only depends on the common prefix pairs (`zip`
semantics). -/
theorem evaluate_guess_truncates (secret guess : List Nat) :
    evaluate_guess secret guess =
      evaluate_guess (secret.take guess.length) (guess.take secret.length) := by
  unfold evaluate_guess bulls_count unmatched_secret unmatched_guess
  rw [zip_take_take]

/-! ## Game-loop attempt counting -/

/-- C7: the attempt counter starts at 0; a submission that fails
validation leaves the session state (secret, attempts, start time)
entirely unchanged; a submission that passes validation increments the
attempt counter by exactly one and changes neither the secret nor the
start time. -/
theorem play_game_attempt_counting :
    (∀ (secret : List Nat) (t : Nat), (init_state secret t).attempts = 0) ∧
    (∀ (st : SessionState) (inp : List Char),
      (is_valid_input inp).1 = false → (play_step st inp).1 = st) ∧
    (∀ (st : SessionState) (inp : List Char),
      (is_valid_input inp).1 = true →
        (play_step st inp).1.attempts = st.attempts + 1 ∧
        (play_step st inp).1.secret = st.secret ∧
        (play_step st inp).1.start_time = st.start_time) := by
  refine ⟨fun _ _ => rfl, ?_, ?_⟩
  · intro st inp h
    simp [play_step, h]
  · intro st inp h
    simp [play_step, h]

/-- Witness for C7: with secret `[1,2,3,4]`, the invalid submission
`"11"` leaves the fresh state unchanged, and the valid submission
`"5678"` bumps the attempt counter from 0 to 1 keeping the secret. -/
theorem play_game_attempt_counting_witness :
    (init_state [1, 2, 3, 4] 0).attempts = 0 ∧
    (play_step (init_state [1, 2, 3, 4] 0) "11".toList).1 =
      init_state [1, 2, 3, 4] 0 ∧
    (play_step (init_state [1, 2, 3, 4] 0) "5678".toList).1.attempts = 1 ∧
    (play_step (init_state [1, 2, 3, 4] 0) "5678".toList).1.secret =
      [1, 2, 3, 4] :=
  ⟨play_game_attempt_counting.1 [1, 2, 3, 4] 0,
   play_game_attempt_counting.2.1 (init_state [1, 2, 3, 4] 0) "11".toList
     (by decide),
   (play_game_attempt_counting.2.2 (init_state [1, 2, 3, 4] 0) "5678".toList
     (by decide)).1,
   (play_game_attempt_counting.2.2 (init_state [1, 2, 3, 4] 0) "5678".toList
     (by decide)).2.1⟩

/-! ## evaluate_guess mutates neither argument -/

theorem position_pass_frame (l : List (Nat × Nat)) :
    ∀ st : EvalState, (position_pass l st).secret = st.secret ∧
      (position_pass l st).guess = st.guess := by
  induction l with
  | nil => intro st; exact ⟨rfl, rfl⟩
  | cons p rest ih =>
      intro st
      obtain ⟨sd, gd⟩ := p
      simp only [position_pass]
      split
      · exact ih _
      · exact ih _

theorem cow_pass_frame (l : List Nat) :
    ∀ st : EvalState, (cow_pass l st).secret = st.secret ∧
      (cow_pass l st).guess = st.guess := by
  induction l with
  | nil => intro st; exact ⟨rfl, rfl⟩
  | cons d rest ih =>
      intro st
      simp only [cow_pass]
      split
      · exact ih _
      · exact ih _

/-- C8: the body of `evaluate_guess`, traced as explicit state passing
over every list variable in its scope, leaves the `secret` and `guess`
arguments element-for-element unchanged: only the local working lists
are ever written. -/
theorem evaluate_guess_no_mutation (secret guess : List Nat) :
    (evaluate_guess_run secret guess).secret = secret ∧
    (evaluate_guess_run secret guess).guess = guess := by
  show (cow_pass _ _).secret = secret ∧ (cow_pass _ _).guess = guess
  constructor
  · exact (cow_pass_frame _ _).1.trans (position_pass_frame _ _).1
  · exact (cow_pass_frame _ _).2.trans (position_pass_frame _ _).2

/-! ## pluralize -/

/-- C9: `pluralize` yields the singular word exactly when the count is 1
and the suffixed word otherwise, prefixed by the count and a space iff
`show_count` is true; including the spec's three concrete examples
(defaults `suffix = "s"`, `show_count = true` passed explicitly). -/
theorem pluralize_correct :
    (∀ (count : Nat) (singular sfx : String) (sc : Bool),
      pluralize count singular sfx sc =
        if sc then
          toString count ++ " " ++
            (if count = 1 then singular else singular ++ sfx)
        else (if count = 1 then singular else singular ++ sfx)) ∧
    pluralize 1 "bull" "s" true = "1 bull" ∧
    pluralize 2 "bull" "s" true = "2 bulls" ∧
    pluralize 3 "attempt" "s" false = "attempts" := by
  refine ⟨?_, by decide, by decide, by decide⟩
  intro c w sfx sc
  simp [pluralize, beq_iff_eq]

end Hrapokus
